import Mathlib

/-!
Verification of the wolfpack peer-to-peer browser-profile sync engine.

This file shallowly embeds the parts of the Rust sources relevant to the
checked properties:

* `src/events/types.rs` — the `Event` variants, `PrefValue`,
  `ExtensionSource` and `EventEnvelope`;
* `src/events/clock.rs` — `VectorClock` (the `HashMap<String, u64>` is
  modelled extensionally as `String → Option Nat`, which captures exactly
  the `PartialEq` of the Rust map; per-entry iteration in `merge` touches
  every key once, so its result is order-independent and is given here
  pointwise);
* `src/events/log.rs` — `next_event_number`, `read_device_events`,
  `read_all_events` and `derive_group_secret` (the filesystem is passed
  explicitly: a directory is the list of its entries; the X25519 functions
  of the external `x25519_dalek` crate are parameters `dh`/`pub`);
* `src/crypto/cipher.rs` — AEAD decryption is modelled functionally: a
  sealed file decrypts exactly under the key it was sealed with;
* `src/state/db.rs` and `src/state/materialize.rs` — the state index as a
  record of extensional key→row maps, and the materializer
  (`uuid::Uuid::now_v7` and the clock readings are threaded through an
  explicit `World`);
* `src/profile/write_queue.rs` — `WriteQueue::flush`, with the profile
  writers as an outcome oracle, and with `Vec::drain(..)` given its real
  semantics: the drained range is removed from the vector even when the
  loop exits early through `?`;
* `src/daemon/pairing.rs` — the `JoinSession` arm of
  `PairingState::handle_command` (`Instant` is a `Nat`, the reply channel
  is the returned value);
* `src/sync/merge.rs` — `merge_events`.

Rust's stable `sort_by` is embedded as an insertion sort that inserts
before the first element the comparator puts (weakly) after the inserted
one, which preserves the relative order of ties exactly as the stable
Rust sort does.
-/

namespace Wolfpack

/-- Rust `PrefValue` from `src/events/types.rs` (untagged bool / i64 / string). -/
inductive PrefValue where
| bool (b : Bool)
| int (i : Int)
| str (s : String)
deriving DecidableEq

/-- Rust `ExtensionSource` from `src/events/types.rs`. -/
inductive ExtensionSource where
| git (url refSpec : String) (buildCmd : Option String)
| amo (amoSlug : String)
| local (originalPath : String)
deriving DecidableEq

/-- The `Event` enum from `src/events/types.rs`; `Uuid` is a `String`. -/
inductive Event where
| extensionAdded (id name : String) (url : Option String)
| extensionRemoved (id : String)
| extensionInstalled (id name version : String) (source : ExtensionSource) (xpiData : String)
| extensionUninstalled (id : String)
| containerAdded (id name color icon : String)
| containerRemoved (id : String)
| containerUpdated (id : String) (name color icon : Option String)
| handlerSet (protocol handler : String)
| handlerRemoved (protocol : String)
| searchEngineAdded (id name url : String)
| searchEngineRemoved (id : String)
| searchEngineDefault (id : String)
| prefSet (key : String) (value : PrefValue)
| prefRemoved (key : String)
| tabSent (toDevice url : String) (title : Option String)
| tabReceived (eventId : String)
deriving DecidableEq

/-- Rust `VectorClock` of `src/events/clock.rs`: the `HashMap<String, u64>`
as the partial function it denotes (`none` = key absent). -/
def VectorClock : Type := String → Option Nat

/-- Rust `VectorClock::new`. -/
def VectorClock.new : VectorClock := fun _ => none

/-- Rust `VectorClock::get`: absent entries read as zero. -/
def VectorClock.get (c : VectorClock) (device : String) : Nat := (c device).getD 0

/-- Rust `VectorClock::set`. -/
def VectorClock.set (c : VectorClock) (device : String) (value : Nat) : VectorClock :=
  fun k => if k = device then some value else c k

/-- Rust `VectorClock::increment`: `entry(device).or_insert(0)` then `+= 1`. -/
def VectorClock.increment (c : VectorClock) (device : String) : VectorClock :=
  fun k => if k = device then some ((c device).getD 0 + 1) else c k

/-- Rust `VectorClock::merge`: for every entry `(k, v)` of `other`, replace this
clock's entry by `max(entry_or_0, v)`; keys absent from `other` are kept.
Each key of `other` is visited exactly once, so the map iteration order of
the Rust `HashMap` does not affect the result, given here pointwise. -/
def VectorClock.merge (self other : VectorClock) : VectorClock :=
  fun k =>
    match other k with
    | some v => some (max ((self k).getD 0) v)
    | none => self k

/-- Rust `EventEnvelope` from `src/events/types.rs`; the UUID `id` is a `String`,
the `DateTime<Utc>` timestamp a `Nat` (the ordering is all that is used). -/
structure EventEnvelope where
  id : String
  timestamp : Nat
  device : String
  clock : VectorClock
  event : Event

/-- C7. For all vector clocks `a` and `b`, `a.merge(b)` equals `b.merge(a)`
(as the partial functions the Rust `HashMap`s denote, which is exactly the
derived `PartialEq`), and every device key reads as the max of the two
entries, absent entries reading as zero. -/
theorem vectorClock_merge_comm_pointwise_max (a b : VectorClock) :
    a.merge b = b.merge a ∧ ∀ k, (a.merge b).get k = max (a.get k) (b.get k) := by
  constructor
  · funext k
    simp only [VectorClock.merge]
    cases ha : a k with
    | none =>
        cases hb : b k with
        | none => simp
        | some v => simp
    | some w =>
        cases hb : b k with
        | none => simp
        | some v => simp [Nat.max_comm]
  · intro k
    simp only [VectorClock.merge, VectorClock.get]
    cases hb : b k with
    | none => simp
    | some v => cases ha : a k <;> simp

/-- Rust `EventLog::derive_group_secret` from `src/events/log.rs`. The X25519
primitives of the external `x25519_dalek` crate are parameters: `dh s p` is
`StaticSecret(s).diffie_hellman(p)` and `selfPub` is the device's own public
key. 32-byte strings are `Nat`s below `2^256`; the position-wise XOR of the
byte arrays is exactly `Nat.xor` of those numbers. An empty known-device
list gives DH with the device's own public key; otherwise the pairwise DH
with every known public key is folded into `combined` with XOR from 0. -/
def deriveGroupSecret (dh : Nat → Nat → Nat) (selfSecret selfPub : Nat)
    (knownDevices : List (String × Nat)) : Nat :=
  if knownDevices.isEmpty then dh selfSecret selfPub
  else knownDevices.foldl (fun combined kv => combined ^^^ dh selfSecret kv.2) 0

/-- A concrete Diffie-Hellman model: public keys are the secrets themselves
and the shared secret is the product. It satisfies the one property of
X25519 the code relies on, `dh a (pub b) = dh b (pub a)`. -/
def dhMul (secret theirPub : Nat) : Nat := secret * theirPub

/-- The public key of a secret in the `dhMul` model. -/
def pubMul (secret : Nat) : Nat := secret

/-- The three-device fleet of the C1 failing input: devices with secrets
1, 2, 3, each knowing every member's public key (self included). -/
def fleet3 : List (String × Nat) := [("dev1", pubMul 1), ("dev2", pubMul 2), ("dev3", pubMul 3)]

/-- C1 (refutation at the failing input). In a Diffie-Hellman model that is
pairwise symmetric — the only property of X25519 that
`EventLog::derive_group_secret` relies on — a three-device fleet in which
every device knows every member's public key derives three values that are
not all equal: devices 1 and 2 derive 0 while device 3 derives 12. The same
happens when each device's known set excludes itself (1 versus 4). So the
XOR-of-own-pairwise-DH construction does not yield a fleet-wide shared
group secret, contradicting the claim. -/
theorem deriveGroupSecret_asymmetric :
    (∀ a b : Nat, dhMul a (pubMul b) = dhMul b (pubMul a))
    ∧ deriveGroupSecret dhMul 1 (pubMul 1) fleet3 = 0
    ∧ deriveGroupSecret dhMul 2 (pubMul 2) fleet3 = 0
    ∧ deriveGroupSecret dhMul 3 (pubMul 3) fleet3 = 12
    ∧ deriveGroupSecret dhMul 1 (pubMul 1) [("dev2", pubMul 2), ("dev3", pubMul 3)] = 1
    ∧ deriveGroupSecret dhMul 2 (pubMul 2) [("dev1", pubMul 1), ("dev3", pubMul 3)] = 4
    ∧ (12 : Nat) ≠ 0 ∧ (1 : Nat) ≠ 4 := by
  refine ⟨fun a b => Nat.mul_comm a b, ?_, ?_, ?_, ?_, ?_, ?_, ?_⟩ <;> decide

/-- Decimal digit parse after the optional sign: rejects the empty string,
any non-digit character and values above `u32::MAX`. -/
def parseU32core (t : List Char) : Option Nat :=
  if t.isEmpty then none
  else if t.all (fun c => c.isDigit) then
    if t.foldl (fun acc c => acc * 10 + (c.toNat - 48)) 0 ≤ 4294967295 then
      some (t.foldl (fun acc c => acc * 10 + (c.toNat - 48)) 0)
    else none
  else none

/-- The integer parse of Rust's `str::parse::<u32>`: an optional leading
`+`, then decimal digits. -/
def parseU32 (s : List Char) : Option Nat :=
  match s with
  | '+' :: rest => parseU32core rest
  | _ => parseU32core s

/-- Rust `name.strip_suffix(".evt")` on the characters of a file name. -/
def stripEvtSuffix (name : List Char) : Option (List Char) :=
  let suf := ['.', 'e', 'v', 't']
  if suf.length ≤ name.length ∧ name.drop (name.length - suf.length) = suf then
    some (name.take (name.length - suf.length))
  else none

/-- The event number a directory entry contributes in
`EventLog::next_event_number`: strip the `.evt` suffix, then parse as u32. -/
def parseEvtNum (name : String) : Option Nat :=
  match stripEvtSuffix name.data with
  | some stem => parseU32 stem
  | none => none

/-- The running maximum of `EventLog::next_event_number`: fold `max` over
the parseable `NNNN.evt` entries, starting from 0. -/
def maxEvtNum (names : List String) : Nat :=
  names.foldl
    (fun mx name => match parseEvtNum name with
      | some n => max mx n
      | none => mx) 0

/-- Rust `EventLog::next_event_number` from `src/events/log.rs`. The directory
is passed explicitly: `none` when the path does not exist, otherwise the
list of entry names. The final `max + 1` is u32 addition (wrap-around at
`2^32` in release builds). -/
def nextEventNumber (dir : Option (List String)) : Nat :=
  match dir with
  | none => 1
  | some names => (maxEvtNum names + 1) % 4294967296

/-- Any value `parseU32core` accepts is at most `u32::MAX`. -/
theorem parseU32core_le (t : List Char) (n : Nat) (h : parseU32core t = some n) :
    n ≤ 4294967295 := by
  unfold parseU32core at h
  split at h
  · simp at h
  · split at h
    · split at h
      · rename_i hle
        injection h with h2
        omega
      · simp at h
    · simp at h

/-- Any value `parseU32` accepts is at most `u32::MAX`. -/
theorem parseU32_le (s : List Char) (n : Nat) (h : parseU32 s = some n) :
    n ≤ 4294967295 := by
  unfold parseU32 at h
  split at h <;> exact parseU32core_le _ _ h

/-- Any event number parsed from a file name is at most `u32::MAX`. -/
theorem parseEvtNum_le (name : String) (n : Nat) (h : parseEvtNum name = some n) :
    n ≤ 4294967295 := by
  unfold parseEvtNum at h
  split at h
  · exact parseU32_le _ _ h
  · simp at h

/-- The running maximum of parsed event numbers stays below `u32::MAX`. -/
theorem maxEvtNum_le (names : List String) :
    maxEvtNum names ≤ 4294967295 := by
  have h : ∀ (l : List String) (mx : Nat), mx ≤ 4294967295 →
      l.foldl (fun mx name => match parseEvtNum name with
        | some n => max mx n
        | none => mx) mx ≤ 4294967295 := by
    intro l
    induction l with
    | nil => intro mx hmx; simpa using hmx
    | cons a t ih =>
        intro mx hmx
        simp only [List.foldl_cons]
        cases hp : parseEvtNum a with
        | none => simp only [hp]; exact ih mx hmx
        | some n =>
            simp only [hp]
            exact ih _ (max_le hmx (parseEvtNum_le a n hp))
  exact h names 0 (by omega)

/-- C8. `next_event_number` returns 1 on a missing directory and on a
directory with no parseable `.evt` entries; otherwise (as long as the
maximum is not the u32 maximum, where the Rust `max + 1` would overflow) it
returns one greater than the maximum event number among the `.evt` file
names; on `{0001.evt, 0003.evt}` it returns 4. -/
theorem nextEventNumber_spec :
    nextEventNumber none = 1
    ∧ (∀ names, (∀ n ∈ names, parseEvtNum n = none) → nextEventNumber (some names) = 1)
    ∧ (∀ names, maxEvtNum names < 4294967295 →
        nextEventNumber (some names) = maxEvtNum names + 1)
    ∧ nextEventNumber (some ["0001.evt", "0003.evt"]) = 4 := by
  refine ⟨rfl, ?_, ?_, by decide⟩
  · intro names hnone
    have h : ∀ (l : List String), (∀ n ∈ l, parseEvtNum n = none) →
        l.foldl (fun mx name => match parseEvtNum name with
          | some n => max mx n
          | none => mx) 0 = 0 := by
      intro l
      induction l with
      | nil => intro _; rfl
      | cons a t ih =>
          intro hl
          have ha := hl a (by simp)
          simp only [List.foldl_cons, ha]
          exact ih (fun n hn => hl n (by simp [hn]))
    simp [nextEventNumber, maxEvtNum, h names hnone]
  · intro names hlt
    have : maxEvtNum names + 1 < 4294967296 := by omega
    simp [nextEventNumber, Nat.mod_eq_of_lt this]

/-- Witness for C8: a directory with no parseable entry yields 1, and
`{0001.evt, 0003.evt}` has maximum 3 and yields 3 + 1. -/
theorem nextEventNumber_spec_witness :
    nextEventNumber (some ["readme.txt", "junk"]) = 1
    ∧ nextEventNumber (some ["0001.evt", "0003.evt"]) = maxEvtNum ["0001.evt", "0003.evt"] + 1 :=
  ⟨nextEventNumber_spec.2.1 ["readme.txt", "junk"] (by decide),
   nextEventNumber_spec.2.2.1 ["0001.evt", "0003.evt"] (by decide)⟩

/-- Insert `a` before the first element that the comparator does not put
strictly before it. With a reflexive-on-ties comparator this is exactly
where Rust's stable sort would leave it. -/
def orderedInsertBy (le : α → α → Bool) (a : α) : List α → List α
  | [] => [a]
  | b :: l => if le a b then a :: b :: l else b :: orderedInsertBy le a l

/-- Stable insertion sort: the embedding of Rust's stable `sort_by` /
`sort_by_key` (ties keep their input order). -/
def insertionSortBy (le : α → α → Bool) : List α → List α
  | [] => []
  | a :: l => orderedInsertBy le a (insertionSortBy le l)

theorem orderedInsertBy_perm (le : α → α → Bool) (a : α) (l : List α) :
    (orderedInsertBy le a l).Perm (a :: l) := by
  induction l with
  | nil => simp [orderedInsertBy]
  | cons b t ih =>
      unfold orderedInsertBy
      by_cases h : le a b = true
      · rw [if_pos h]
      · rw [if_neg h]
        exact (ih.cons b).trans (List.Perm.swap a b t)

theorem insertionSortBy_perm (le : α → α → Bool) (l : List α) :
    (insertionSortBy le l).Perm l := by
  induction l with
  | nil => simp [insertionSortBy]
  | cons a t ih =>
      unfold insertionSortBy
      exact ((orderedInsertBy_perm le a (insertionSortBy le t)).trans (ih.cons a))

theorem orderedInsertBy_pairwise (le : α → α → Bool)
    (htot : ∀ x y, le x y = true ∨ le y x = true)
    (htrans : ∀ x y z, le x y = true → le y z = true → le x z = true)
    (a : α) (l : List α) (hl : l.Pairwise (fun x y => le x y = true)) :
    (orderedInsertBy le a l).Pairwise (fun x y => le x y = true) := by
  induction l with
  | nil => simp [orderedInsertBy]
  | cons b t ih =>
      rw [List.pairwise_cons] at hl
      unfold orderedInsertBy
      by_cases h : le a b = true
      · simp only [if_pos h]
        refine List.Pairwise.cons ?_ (List.Pairwise.cons hl.1 hl.2)
        intro x hx
        rcases List.mem_cons.mp hx with rfl | hx
        · exact h
        · exact htrans a b x h (hl.1 x hx)
      · simp only [if_neg h]
        refine List.Pairwise.cons ?_ (ih hl.2)
        intro x hx
        have hx' := (orderedInsertBy_perm le a t).mem_iff.mp hx
        rcases List.mem_cons.mp hx' with rfl | hx'
        · rcases htot x b with hxb | hbx
          · exact absurd hxb h
          · exact hbx
        · exact hl.1 x hx'

theorem insertionSortBy_pairwise (le : α → α → Bool)
    (htot : ∀ x y, le x y = true ∨ le y x = true)
    (htrans : ∀ x y z, le x y = true → le y z = true → le x z = true)
    (l : List α) :
    (insertionSortBy le l).Pairwise (fun x y => le x y = true) := by
  induction l with
  | nil => simp [insertionSortBy]
  | cons a t ih =>
      unfold insertionSortBy
      exact orderedInsertBy_pairwise le htot htrans a _ ih

/-- Lexicographic comparison of file-name characters (the `Ord` of the
names `read_device_events` sorts by). Ties read as `true` so sorting with
it is stable. -/
def charListLe : List Char → List Char → Bool
  | [], _ => true
  | _ :: _, [] => false
  | a :: as, b :: bs => if a.toNat = b.toNat then charListLe as bs else Nat.blt a.toNat b.toNat

/-- The timestamp comparator of `read_all_events` and `merge_events`:
`sort_by(|a, b| a.timestamp.cmp(&b.timestamp))` under stable-sort
semantics. -/
def tsLe (a b : EventEnvelope) : Bool := Nat.ble a.timestamp b.timestamp

theorem tsLe_total (a b : EventEnvelope) : tsLe a b = true ∨ tsLe b a = true := by
  unfold tsLe
  rcases Nat.le_total a.timestamp b.timestamp with h | h
  · exact Or.inl (Nat.ble_eq.mpr h)
  · exact Or.inr (Nat.ble_eq.mpr h)

theorem tsLe_trans (a b c : EventEnvelope) :
    tsLe a b = true → tsLe b c = true → tsLe a c = true := by
  unfold tsLe
  intro h1 h2
  exact Nat.ble_eq.mpr (Nat.le_trans (Nat.ble_eq.mp h1) (Nat.ble_eq.mp h2))

/-- A sealed event file as `EventFile::load` yields it, reduced to what
decryption observes: the AEAD key it was sealed under and the envelope
list inside. `decrypt` succeeds exactly under the sealing key, returning
the envelopes; any other key fails the tag check. -/
structure EventFileM where
  key : Nat
  envelopes : List EventEnvelope

/-- Rust `EventFile::decrypt` composed with `crypto::decrypt`: an opaque
failure unless the group secret matches the sealing key. -/
def decryptFile (f : EventFileM) (secret : Nat) : Option (List EventEnvelope) :=
  if f.key = secret then some f.envelopes else none

/-- Rust `entry.path().extension().is_some_and(|ext| ext == "evt")`: the name
has a suffix `.evt` preceded by at least one character. -/
def extIsEvt (name : String) : Bool :=
  decide (5 ≤ name.data.length) &&
    decide (name.data.drop (name.data.length - 4) = ['.', 'e', 'v', 't'])

/-- Whether an `Except` is an `ok`. -/
def exceptIsOk : Except ε α → Bool
  | .ok _ => true
  | .error _ => false

/-- The loop body of `EventLog::read_device_events`: walk the (sorted)
entries, skip names without the `evt` extension, decrypt each event file
and concatenate; the `?` on `decrypt` makes the first failure abort the
whole read. -/
def readLoop (secret : Nat) : List (String × EventFileM) → Except String (List EventEnvelope)
  | [] => .ok []
  | (name, f) :: rest =>
    if extIsEvt name then
      match decryptFile f secret with
      | none => .error "Decryption failed - invalid key or corrupted data"
      | some evs =>
        match readLoop secret rest with
        | .error e => .error e
        | .ok more => .ok (evs ++ more)
    else readLoop secret rest

/-- Rust `entries.sort_by_key(|e| e.file_name())`. -/
def sortEntriesByName (entries : List (String × EventFileM)) : List (String × EventFileM) :=
  insertionSortBy (fun a b => charListLe a.1.data b.1.data) entries

/-- Rust `EventLog::read_device_events` on an existing device directory, the
group secret already derived: sort the entries by file name, then run the
read loop. -/
def readDeviceEvents (entries : List (String × EventFileM)) (secret : Nat) :
    Except String (List EventEnvelope) :=
  readLoop secret (sortEntriesByName entries)

/-- The concatenation loop of `EventLog::read_all_events`: read every
device directory in turn (`?` propagates the first failure), appending the
results. -/
def readAllEventsRaw :
    List (String × List (String × EventFileM)) → Nat → Except String (List EventEnvelope)
  | [], _ => .ok []
  | (_, entries) :: rest, secret =>
    match readDeviceEvents entries secret with
    | .error e => .error e
    | .ok evs =>
      match readAllEventsRaw rest secret with
      | .error e => .error e
      | .ok more => .ok (evs ++ more)

/-- Rust `EventLog::read_all_events` on an existing events directory: collect
all device directories, then sort the result by envelope timestamp only. -/
def readAllEvents (dirs : List (String × List (String × EventFileM))) (secret : Nat) :
    Except String (List EventEnvelope) :=
  match readAllEventsRaw dirs secret with
  | .error e => .error e
  | .ok evs => .ok (insertionSortBy tsLe evs)

/-- Rust `merge_events` from `src/sync/merge.rs`: keep the first occurrence of
every envelope id from `local ++ remote`, merging each kept envelope's
clock into the local clock, then sort by timestamp only. -/
def mergeEvents (l r : List EventEnvelope) (localClock : VectorClock) :
    List EventEnvelope × VectorClock :=
  let step := fun (acc : List EventEnvelope × VectorClock × List String) (e : EventEnvelope) =>
    if acc.2.2.contains e.id then acc
    else (acc.1 ++ [e], acc.2.1.merge e.clock, e.id :: acc.2.2)
  let res := (l ++ r).foldl step ([], localClock, [])
  (insertionSortBy tsLe res.1, res.2.1)

/-- An envelope that decrypts fine, used by the reader counterexamples. -/
def envGood : EventEnvelope :=
  { id := "good-1", timestamp := 7, device := "devA", clock := VectorClock.new,
    event := .extensionRemoved "x" }

/-- An event file sealed under key 1: it fails the tag check under the
group secret 0. -/
def fileBad : EventFileM :=
  { key := 1,
    envelopes := [{ id := "bad-1", timestamp := 3, device := "devA",
                    clock := VectorClock.new, event := .extensionRemoved "y" }] }

/-- An event file sealed under key 0 containing `envGood`. -/
def fileGood : EventFileM := { key := 0, envelopes := [envGood] }

/-- C3 (counterexample). A device directory holding `0001.evt` (which does
not decrypt under the group secret) and `0002.evt` (which does) makes
`read_device_events` return the decryption error: the sibling file's
envelopes are not returned, even though that file decrypts on its own.
The claim says the failure is skipped and `[envGood]` is returned. -/
theorem readDeviceEvents_decrypt_failure_fatal :
    readDeviceEvents [("0001.evt", fileBad), ("0002.evt", fileGood)] 0
      = Except.error "Decryption failed - invalid key or corrupted data"
    ∧ decryptFile fileGood 0 = some [envGood] :=
  ⟨rfl, rfl⟩

/-- If some `.evt` entry of the directory fails to decrypt, the read loop
returns an error. -/
theorem readLoop_error (secret : Nat) (l : List (String × EventFileM))
    (nf : String × EventFileM) (hmem : nf ∈ l) (hevt : extIsEvt nf.1 = true)
    (hfail : decryptFile nf.2 secret = none) :
    exceptIsOk (readLoop secret l) = false := by
  induction l with
  | nil => cases hmem
  | cons hd t ih =>
      obtain ⟨name, f⟩ := hd
      rcases List.mem_cons.mp hmem with heq | hmem'
      · rw [heq] at hevt hfail
        simp only [readLoop, hevt, if_true, hfail, exceptIsOk]
      · have ihr := ih hmem'
        by_cases he : extIsEvt name = true
        · cases hdec : decryptFile f secret with
          | none => simp [readLoop, he, hdec, exceptIsOk]
          | some evs =>
              cases hr : readLoop secret t with
              | error e => simp [readLoop, he, hdec, hr, exceptIsOk]
              | ok more =>
                  rw [hr] at ihr
                  simp [exceptIsOk] at ihr
        · have he' : extIsEvt name = false := by
            cases hb : extIsEvt name
            · rfl
            · exact absurd hb he
          simp only [readLoop, he', Bool.false_eq_true, if_false]
          exact ihr

/-- C3 (amended). A decryption failure in `read_device_events` is fatal at
device-directory scope: if any `.evt` file of the directory fails to
decrypt under the group secret, the whole read returns an error and no
sibling envelope is returned. -/
theorem readDeviceEvents_error_on_any_decrypt_failure
    (entries : List (String × EventFileM)) (secret : Nat)
    (nf : String × EventFileM) (hmem : nf ∈ entries) (hevt : extIsEvt nf.1 = true)
    (hfail : decryptFile nf.2 secret = none) :
    exceptIsOk (readDeviceEvents entries secret) = false := by
  have hmem' : nf ∈ sortEntriesByName entries :=
    (insertionSortBy_perm _ entries).mem_iff.mpr hmem
  exact readLoop_error secret (sortEntriesByName entries) nf hmem' hevt hfail

/-- Witness for C3's amended theorem at the concrete directory of the
counterexample. -/
theorem readDeviceEvents_error_on_any_decrypt_failure_witness :
    exceptIsOk (readDeviceEvents [("0001.evt", fileBad), ("0002.evt", fileGood)] 0) = false :=
  readDeviceEvents_error_on_any_decrypt_failure
    [("0001.evt", fileBad), ("0002.evt", fileGood)] 0 ("0001.evt", fileBad)
    (List.mem_cons_self _ _) (by decide) rfl

/-- Two envelopes with the same timestamp whose ids are in reverse
lexicographic order, used by the C6 counterexample. -/
def envTieB : EventEnvelope :=
  { id := "b", timestamp := 5, device := "devY", clock := VectorClock.new,
    event := .extensionRemoved "y" }

/-- The tie partner of `envTieB` with the lexicographically smaller id. -/
def envTieA : EventEnvelope :=
  { id := "a", timestamp := 5, device := "devX", clock := VectorClock.new,
    event := .extensionRemoved "x" }

/-- C6 (counterexample). A directory whose single event file holds the two
equal-timestamp envelopes in the order `[b-id, a-id]` is returned by
`read_all_events` in that same order — the stable timestamp sort does not
reorder ties — and `merge_events` does the same, so envelopes with
identical timestamps are NOT ordered by lexicographic id comparison as the
claim states. -/
theorem readAllEvents_ties_not_id_sorted :
    readAllEvents [("devY", [("0001.evt", { key := 0, envelopes := [envTieB, envTieA] })])] 0
      = Except.ok [envTieB, envTieA]
    ∧ (mergeEvents [envTieB] [envTieA] VectorClock.new).1 = [envTieB, envTieA]
    ∧ envTieB.timestamp = envTieA.timestamp
    ∧ charListLe envTieB.id.data envTieA.id.data = false :=
  ⟨rfl, rfl, rfl, rfl⟩

/-- C6 (amended). `read_all_events` and `merge_events` return the
envelopes sorted by timestamp ascending; the sort is stable (the output of
`read_all_events` is a permutation of the concatenated directory reads,
with ties kept in concatenation order), and ties are not re-ordered by
id. -/
theorem readAllEvents_sorted_by_timestamp :
    (∀ dirs secret evs, readAllEvents dirs secret = Except.ok evs →
        evs.Pairwise (fun a b => a.timestamp ≤ b.timestamp)
        ∧ ∃ raw, readAllEventsRaw dirs secret = Except.ok raw ∧ evs.Perm raw)
    ∧ (∀ l r c, ((mergeEvents l r c).1).Pairwise
        (fun a b => a.timestamp ≤ b.timestamp)) := by
  constructor
  · intro dirs secret evs hok
    unfold readAllEvents at hok
    cases hraw : readAllEventsRaw dirs secret with
    | error e => rw [hraw] at hok; exact absurd hok (by simp)
    | ok raw =>
        rw [hraw] at hok
        have hevs : evs = insertionSortBy tsLe raw := by
          injection hok with h
          exact h.symm
        subst hevs
        refine ⟨?_, raw, rfl, insertionSortBy_perm tsLe raw⟩
        have hp := insertionSortBy_pairwise tsLe tsLe_total tsLe_trans raw
        exact hp.imp (fun h => Nat.ble_eq.mp h)
  · intro l r c
    have hp := insertionSortBy_pairwise tsLe tsLe_total tsLe_trans
      ((l ++ r).foldl (fun acc e =>
        if acc.2.2.contains e.id then acc
        else (acc.1 ++ [e], acc.2.1.merge e.clock, e.id :: acc.2.2)) ([], c, [])).1
    exact hp.imp (fun h => Nat.ble_eq.mp h)

/-- Witness for C6's amended theorem at the counterexample input: the
returned list is timestamp-sorted. -/
theorem readAllEvents_sorted_by_timestamp_witness :
    ([envTieB, envTieA] : List EventEnvelope).Pairwise
      (fun a b => a.timestamp ≤ b.timestamp) :=
  (readAllEvents_sorted_by_timestamp.1
    [("devY", [("0001.evt", { key := 0, envelopes := [envTieB, envTieA] })])] 0
    [envTieB, envTieA] rfl).1

/-- A row of `applied_events` (`id` is the key). -/
structure AppliedRow where
  device : String
  timestamp : Nat
deriving DecidableEq

/-- A row of `extensions`. -/
structure ExtRow where
  name : String
  url : Option String
  addedAt : Nat
deriving DecidableEq

/-- A row of `extension_xpi`; `sourceData` stands for the JSON rendering
of the source descriptor. -/
structure XpiRow where
  version : String
  sourceType : String
  sourceData : ExtensionSource
  xpiData : String
  installedAt : Nat
deriving DecidableEq

/-- A row of `containers`. -/
structure ContainerRow where
  name : String
  color : String
  icon : String
deriving DecidableEq

/-- A row of `search_engines`. -/
structure SearchEngineRow where
  name : String
  url : String
  isDefault : Bool
deriving DecidableEq

/-- A row of `pending_tabs`. -/
structure PendingTabRow where
  url : String
  title : Option String
  sentBy : String
  sentAt : Nat
deriving DecidableEq

/-- The state index of `src/state/db.rs`: every table as the key→row map
it denotes (`TEXT PRIMARY KEY` throughout, so a table is exactly such a
map; `none` = no row). -/
structure StateDb where
  appliedEvents : String → Option AppliedRow
  extensions : String → Option ExtRow
  extensionXpi : String → Option XpiRow
  containers : String → Option ContainerRow
  handlers : String → Option String
  searchEngines : String → Option SearchEngineRow
  prefs : String → Option (String × String)
  pendingTabs : String → Option PendingTabRow
  vectorClockTable : VectorClock

/-- Point update of a table: `INSERT OR REPLACE` (`v = some row`) or
`DELETE` (`v = none`) at key `k`. -/
def upd (m : String → Option β) (k : String) (v : Option β) : String → Option β :=
  fun x => if x = k then v else m x

/-- Rust `StateDb::is_event_applied`. -/
def StateDb.isEventApplied (db : StateDb) (eventId : String) : Bool :=
  (db.appliedEvents eventId).isSome

/-- Rust `StateDb::mark_event_applied` (`INSERT OR IGNORE`). -/
def StateDb.markEventApplied (db : StateDb) (eventId device : String) (timestamp : Nat) :
    StateDb :=
  if (db.appliedEvents eventId).isSome then db
  else { db with appliedEvents := upd db.appliedEvents eventId (some ⟨device, timestamp⟩) }

/-- Rust `StateDb::add_extension` (`added_at = datetime('now')`). -/
def StateDb.addExtension (db : StateDb) (id name : String) (url : Option String) (now : Nat) :
    StateDb :=
  { db with extensions := upd db.extensions id (some ⟨name, url, now⟩) }

/-- Rust `StateDb::remove_extension`. -/
def StateDb.removeExtension (db : StateDb) (id : String) : StateDb :=
  { db with extensions := upd db.extensions id none }

/-- The `source_type` tag `StateDb::store_extension_xpi` writes. -/
def sourceTypeOf : ExtensionSource → String
  | .git _ _ _ => "git"
  | .amo _ => "amo"
  | .local _ => "local"

/-- Rust `StateDb::store_extension_xpi`. -/
def StateDb.storeExtensionXpi (db : StateDb) (id version : String)
    (source : ExtensionSource) (xpiData : String) (now : Nat) : StateDb :=
  let row : XpiRow := ⟨version, sourceTypeOf source, source, xpiData, now⟩
  { db with extensionXpi := upd db.extensionXpi id (some row) }

/-- Rust `StateDb::remove_extension_xpi`. -/
def StateDb.removeExtensionXpi (db : StateDb) (id : String) : StateDb :=
  { db with extensionXpi := upd db.extensionXpi id none }

/-- Rust `StateDb::add_container`. -/
def StateDb.addContainer (db : StateDb) (id name color icon : String) : StateDb :=
  { db with containers := upd db.containers id (some ⟨name, color, icon⟩) }

/-- Rust `StateDb::remove_container`. -/
def StateDb.removeContainer (db : StateDb) (id : String) : StateDb :=
  { db with containers := upd db.containers id none }

/-- Rust `StateDb::set_handler`. -/
def StateDb.setHandler (db : StateDb) (protocol handler : String) : StateDb :=
  { db with handlers := upd db.handlers protocol (some handler) }

/-- Rust `StateDb::remove_handler`. -/
def StateDb.removeHandler (db : StateDb) (protocol : String) : StateDb :=
  { db with handlers := upd db.handlers protocol none }

/-- Rust `StateDb::set_pref`. -/
def StateDb.setPref (db : StateDb) (key value valueType : String) : StateDb :=
  { db with prefs := upd db.prefs key (some (value, valueType)) }

/-- Rust `StateDb::remove_pref`. -/
def StateDb.removePref (db : StateDb) (key : String) : StateDb :=
  { db with prefs := upd db.prefs key none }

/-- Rust `StateDb::add_search_engine`: always inserts with `is_default = 0`. -/
def StateDb.addSearchEngine (db : StateDb) (id name url : String) : StateDb :=
  { db with searchEngines := upd db.searchEngines id (some ⟨name, url, false⟩) }

/-- Rust `StateDb::remove_search_engine`. -/
def StateDb.removeSearchEngine (db : StateDb) (id : String) : StateDb :=
  { db with searchEngines := upd db.searchEngines id none }

/-- Rust `StateDb::set_default_search_engine`: first
`UPDATE search_engines SET is_default = 0` on every row, then set the flag
on the named id (a no-op when no such row exists). -/
def StateDb.setDefaultSearchEngine (db : StateDb) (id : String) : StateDb :=
  let cleared : String → Option SearchEngineRow :=
    fun k => (db.searchEngines k).map (fun r => { r with isDefault := false })
  { db with searchEngines := fun k => if k = id then (cleared k).map (fun r => { r with isDefault := true }) else cleared k }

/-- Rust `StateDb::add_pending_tab`. -/
def StateDb.addPendingTab (db : StateDb) (id url : String) (title : Option String)
    (sentBy : String) (sentAt : Nat) : StateDb :=
  { db with pendingTabs := upd db.pendingTabs id (some ⟨url, title, sentBy, sentAt⟩) }

/-- Rust `StateDb::remove_pending_tab`. -/
def StateDb.removePendingTab (db : StateDb) (id : String) : StateDb :=
  { db with pendingTabs := upd db.pendingTabs id none }

/-- The ambient effects the materializer reads: the state index plus the
`uuid::Uuid::now_v7()` generator and the wall clock. -/
structure World where
  db : StateDb
  uuidGen : Nat
  now : Nat

/-- The `n`-th fresh UUID `Uuid::now_v7()` hands out. -/
def genUuid (n : Nat) : String := "uuid-" ++ toString n

/-- Rust `pref_to_storage` from `src/state/materialize.rs`. -/
def prefToStorage : PrefValue → String × String
  | .bool b => (toString b, "bool")
  | .int i => (toString i, "int")
  | .str s => (s, "string")

/-- Rust `apply_event` from `src/state/materialize.rs`: the per-variant
dispatch into the state index. `TabSent` addressed to this device draws a
fresh UUID and the current time. -/
def applyEvent (w : World) (ev : Event) (thisDevice : String) : World :=
  match ev with
  | .extensionAdded id name url => { w with db := w.db.addExtension id name url w.now }
  | .extensionRemoved id => { w with db := w.db.removeExtension id }
  | .extensionInstalled id name version source xpiData =>
      { w with db := (w.db.addExtension id name none w.now).storeExtensionXpi id version source xpiData w.now }
  | .extensionUninstalled id => { w with db := (w.db.removeExtension id).removeExtensionXpi id }
  | .containerAdded id name color icon => { w with db := w.db.addContainer id name color icon }
  | .containerRemoved id => { w with db := w.db.removeContainer id }
  | .containerUpdated id name color icon =>
      match name, color, icon with
      | some n, some c, some i => { w with db := w.db.addContainer id n c i }
      | _, _, _ => w
  | .handlerSet protocol handler => { w with db := w.db.setHandler protocol handler }
  | .handlerRemoved protocol => { w with db := w.db.removeHandler protocol }
  | .searchEngineAdded id name url => { w with db := w.db.addSearchEngine id name url }
  | .searchEngineRemoved id => { w with db := w.db.removeSearchEngine id }
  | .searchEngineDefault id => { w with db := w.db.setDefaultSearchEngine id }
  | .prefSet key value =>
      { w with db := w.db.setPref key (prefToStorage value).1 (prefToStorage value).2 }
  | .prefRemoved key => { w with db := w.db.removePref key }
  | .tabSent toDevice url title =>
      if toDevice = thisDevice then
        { w with
          db := w.db.addPendingTab (genUuid w.uuidGen) url title toDevice w.now,
          uuidGen := w.uuidGen + 1 }
      else w
  | .tabReceived eventId => { w with db := w.db.removePendingTab eventId }

/-- One iteration of the `materialize_events` loop: skip when the envelope
id is already in `applied_events`, otherwise apply the event, record the
id, and bump the applied counter. -/
def matStep (thisDevice : String) (acc : World × Nat) (e : EventEnvelope) : World × Nat :=
  if acc.1.db.isEventApplied e.id then acc
  else
    ({ applyEvent acc.1 e.event thisDevice with
        db := (applyEvent acc.1 e.event thisDevice).db.markEventApplied
          e.id e.device e.timestamp },
     acc.2 + 1)

/-- The loop of `materialize_events`. -/
def matGo (thisDevice : String) : World × Nat → List EventEnvelope → World × Nat
  | acc, [] => acc
  | acc, e :: rest => matGo thisDevice (matStep thisDevice acc e) rest

/-- Rust `materialize_events` from `src/state/materialize.rs`: returns the
resulting world and the number of events applied. -/
def materializeEvents (w : World) (events : List EventEnvelope) (thisDevice : String) :
    World × Nat :=
  matGo thisDevice (w, 0) events

/-- The empty state index (all tables empty), as created by the schema. -/
def emptyDb : StateDb :=
  { appliedEvents := fun _ => none, extensions := fun _ => none,
    extensionXpi := fun _ => none, containers := fun _ => none,
    handlers := fun _ => none, searchEngines := fun _ => none,
    prefs := fun _ => none, pendingTabs := fun _ => none,
    vectorClockTable := VectorClock.new }

/-- A fresh world over the empty schema. -/
def emptyWorld : World := { db := emptyDb, uuidGen := 0, now := 0 }

/-- Rust `apply_event` never touches the `applied_events` table. -/
theorem applyEvent_appliedEvents (w : World) (ev : Event) (d : String) :
    (applyEvent w ev d).db.appliedEvents = w.db.appliedEvents := by
  cases ev with
  | containerUpdated id n c i => cases n <;> cases c <;> cases i <;> rfl
  | tabSent t u ti =>
      simp only [applyEvent]
      split <;> rfl
  | _ => rfl

/-- Rust `mark_event_applied` never touches the `pending_tabs` table. -/
theorem markEventApplied_pendingTabs (db : StateDb) (id dev : String) (ts : Nat) :
    (db.markEventApplied id dev ts).pendingTabs = db.pendingTabs := by
  unfold StateDb.markEventApplied
  split <;> rfl

/-- Rust `mark_event_applied` never touches the `search_engines` table. -/
theorem markEventApplied_searchEngines (db : StateDb) (id dev : String) (ts : Nat) :
    (db.markEventApplied id dev ts).searchEngines = db.searchEngines := by
  unfold StateDb.markEventApplied
  split <;> rfl

/-- After one materializer step on envelope `e`, its id is in
`applied_events`. -/
theorem matStep_applied (d : String) (acc : World × Nat) (e : EventEnvelope) :
    ((matStep d acc e).1.db.appliedEvents e.id).isSome = true := by
  unfold matStep
  split
  · rename_i h
    exact h
  · rename_i h
    simp only [StateDb.isEventApplied] at h
    have hpres := applyEvent_appliedEvents acc.1 e.event d
    simp only [StateDb.markEventApplied, hpres]
    rw [if_neg h]
    simp [upd]

/-- A materializer step on an already-applied envelope is the identity. -/
theorem matStep_skip (d : String) (acc : World × Nat) (e : EventEnvelope)
    (h : (acc.1.db.appliedEvents e.id).isSome = true) :
    matStep d acc e = acc := by
  unfold matStep StateDb.isEventApplied
  rw [if_pos h]

/-- C2. Materializing `[e, e]` yields exactly the same state index (and
applied count) as materializing `[e]`, and materializing `[e]` again after
materializing `[e]` leaves the world unchanged: the second application is
skipped because `e.id` is already in `applied_events`. -/
theorem materialize_idempotent (w : World) (e : EventEnvelope) (d : String) :
    materializeEvents w [e, e] d = materializeEvents w [e] d
    ∧ (materializeEvents (materializeEvents w [e] d).1 [e] d).1
        = (materializeEvents w [e] d).1 := by
  constructor
  · show matGo d (w, 0) [e, e] = matGo d (w, 0) [e]
    simp only [matGo]
    exact congrArg (fun a => a) (matStep_skip d (matStep d (w, 0) e) e (matStep_applied d (w, 0) e))
  · show (matGo d ((matGo d (w, 0) [e]).1, 0) [e]).1 = (matGo d (w, 0) [e]).1
    simp only [matGo]
    rw [matStep_skip d ((matStep d (w, 0) e).1, 0) e (matStep_applied d (w, 0) e)]

/-- Whether the `search_engines` row at `i` has the default flag set. -/
def isDefaultEngine (db : StateDb) (i : String) : Bool :=
  match db.searchEngines i with
  | some r => r.isDefault
  | none => false

/-- At most one `search_engines` row has the default flag set. -/
def atMostOneDefault (db : StateDb) : Prop :=
  ∀ i j, isDefaultEngine db i = true → isDefaultEngine db j = true → i = j

/-- The invariant only looks at `search_engines`. -/
theorem atMostOneDefault_congr (db db' : StateDb)
    (hse : db'.searchEngines = db.searchEngines) (h : atMostOneDefault db) :
    atMostOneDefault db' := by
  intro i j hi hj
  rw [isDefaultEngine, hse] at hi hj
  exact h i j hi hj

/-- Rust `apply_event` preserves the at-most-one-default invariant:
`SearchEngineAdded` inserts with the flag clear, `SearchEngineDefault`
clears every row before setting the named one, and no other variant
touches `search_engines`. -/
theorem applyEvent_atMostOneDefault (w : World) (ev : Event) (d : String)
    (h : atMostOneDefault w.db) :
    atMostOneDefault (applyEvent w ev d).db := by
  cases ev with
  | searchEngineAdded id name url =>
      intro i j hi hj
      have key : ∀ k, isDefaultEngine (applyEvent w (.searchEngineAdded id name url) d).db k = true →
          isDefaultEngine w.db k = true := by
        intro k hk
        simp only [applyEvent, StateDb.addSearchEngine, isDefaultEngine, upd] at hk ⊢
        by_cases hkk : k = id
        · rw [if_pos hkk] at hk
          simp at hk
        · rw [if_neg hkk] at hk
          exact hk
      exact h i j (key i hi) (key j hj)
  | searchEngineRemoved id =>
      intro i j hi hj
      have key : ∀ k, isDefaultEngine (applyEvent w (.searchEngineRemoved id) d).db k = true →
          isDefaultEngine w.db k = true := by
        intro k hk
        simp only [applyEvent, StateDb.removeSearchEngine, isDefaultEngine, upd] at hk ⊢
        by_cases hkk : k = id
        · rw [if_pos hkk] at hk
          simp at hk
        · rw [if_neg hkk] at hk
          exact hk
      exact h i j (key i hi) (key j hj)
  | searchEngineDefault id =>
      intro i j hi hj
      have key : ∀ k, isDefaultEngine (applyEvent w (.searchEngineDefault id) d).db k = true →
          k = id := by
        intro k hk
        simp only [applyEvent, StateDb.setDefaultSearchEngine, isDefaultEngine] at hk
        by_cases hkk : k = id
        · exact hkk
        · rw [if_neg hkk] at hk
          cases hse : w.db.searchEngines k <;> rw [hse] at hk <;> simp at hk
      exact (key i hi).trans (key j hj).symm
  | containerUpdated id n c i =>
      refine atMostOneDefault_congr w.db _ ?_ h
      cases n <;> cases c <;> cases i <;> rfl
  | tabSent t u ti =>
      refine atMostOneDefault_congr w.db _ ?_ h
      simp only [applyEvent]
      split <;> rfl
  | _ =>
      exact atMostOneDefault_congr w.db _ rfl h

/-- Every materializer step preserves the at-most-one-default invariant. -/
theorem matStep_atMostOneDefault (d : String) (acc : World × Nat) (e : EventEnvelope)
    (h : atMostOneDefault acc.1.db) :
    atMostOneDefault (matStep d acc e).1.db := by
  unfold matStep
  split
  · exact h
  · exact atMostOneDefault_congr _ _ (markEventApplied_searchEngines _ _ _ _)
      (applyEvent_atMostOneDefault acc.1 e.event d h)

/-- The materializer loop preserves the at-most-one-default invariant. -/
theorem matGo_atMostOneDefault (d : String) (es : List EventEnvelope) :
    ∀ (acc : World × Nat), atMostOneDefault acc.1.db →
      atMostOneDefault ((matGo d acc es).1.db) := by
  induction es with
  | nil => intro acc h; exact h
  | cons e rest ih =>
      intro acc h
      exact ih (matStep d acc e) (matStep_atMostOneDefault d acc e h)

/-- C9. In every state index reachable by materializing any event sequence
from the empty schema, at most one `search_engines` row has the default
flag set. -/
theorem searchEngines_at_most_one_default (events : List EventEnvelope) (d : String) :
    atMostOneDefault ((materializeEvents emptyWorld events d).1.db) := by
  refine matGo_atMostOneDefault d events (emptyWorld, 0) ?_
  intro i j hi hj
  simp [isDefaultEngine, emptyWorld, emptyDb] at hi

/-- Rust `SyncEngine::acknowledge_tab` from `src/sync/engine.rs`, reduced to
its state effect: delete the pending-tab row with the given id and produce
the `TabReceived` event (written to the log) that references that same
row id. -/
def acknowledgeTab (w : World) (tabId : String) : World × Event :=
  ({ w with db := w.db.removePendingTab tabId }, Event.tabReceived tabId)

/-- C10. Materializing a `TabSent` envelope `e` addressed to this device
inserts the `pending_tabs` row under the freshly generated UUID
`genUuid w.uuidGen`, which is a function of the generator state alone and
not of `e.id`. Provided that fresh UUID differs from `e.id` (true with
overwhelming probability for `Uuid::now_v7`), a later `TabReceived`
envelope carrying `e.id` leaves the row in place, while one carrying the
locally generated row id — the id `acknowledge_tab` puts into the
`TabReceived` event — deletes it. -/
theorem tabSent_row_survives_foreign_ack
    (w : World) (e : EventEnvelope) (dev url : String) (title : Option String)
    (hev : e.event = Event.tabSent dev url title)
    (hna : w.db.appliedEvents e.id = none)
    (hne : genUuid w.uuidGen ≠ e.id) :
    ((materializeEvents w [e] dev).1.db.pendingTabs (genUuid w.uuidGen)
        = some { url := url, title := title, sentBy := dev, sentAt := w.now })
    ∧ (∀ e2 : EventEnvelope, e2.event = Event.tabReceived e.id →
        (materializeEvents (materializeEvents w [e] dev).1 [e2] dev).1.db.pendingTabs
            (genUuid w.uuidGen)
          = some { url := url, title := title, sentBy := dev, sentAt := w.now })
    ∧ (∀ e3 : EventEnvelope, e3.event = Event.tabReceived (genUuid w.uuidGen) →
        (materializeEvents w [e] dev).1.db.appliedEvents e3.id = none →
        (materializeEvents (materializeEvents w [e] dev).1 [e3] dev).1.db.pendingTabs
            (genUuid w.uuidGen)
          = none)
    ∧ (acknowledgeTab (materializeEvents w [e] dev).1 (genUuid w.uuidGen)).1.db.pendingTabs
          (genUuid w.uuidGen) = none
    ∧ (acknowledgeTab (materializeEvents w [e] dev).1 (genUuid w.uuidGen)).2
          = Event.tabReceived (genUuid w.uuidGen) := by
  have hw1db : (materializeEvents w [e] dev).1.db.pendingTabs
      = upd w.db.pendingTabs (genUuid w.uuidGen) (some ⟨url, title, dev, w.now⟩) := by
    show (matStep dev (w, 0) e).1.db.pendingTabs = _
    unfold matStep
    rw [if_neg (by simp [StateDb.isEventApplied, hna])]
    show ((applyEvent w e.event dev).db.markEventApplied e.id e.device e.timestamp).pendingTabs = _
    rw [markEventApplied_pendingTabs, hev]
    simp [applyEvent, StateDb.addPendingTab]
  have h1 : (materializeEvents w [e] dev).1.db.pendingTabs (genUuid w.uuidGen)
      = some { url := url, title := title, sentBy := dev, sentAt := w.now } := by
    rw [hw1db]
    simp [upd]
  refine ⟨h1, ?_, ?_, ?_, rfl⟩
  · intro e2 he2
    show (matStep dev ((materializeEvents w [e] dev).1, 0) e2).1.db.pendingTabs _ = _
    unfold matStep
    split
    · exact h1
    · show (((applyEvent (materializeEvents w [e] dev).1 e2.event dev).db.markEventApplied
          e2.id e2.device e2.timestamp)).pendingTabs _ = _
      rw [markEventApplied_pendingTabs, he2]
      simpa [applyEvent, StateDb.removePendingTab, upd, hne] using h1
  · intro e3 he3 hna3
    show (matStep dev ((materializeEvents w [e] dev).1, 0) e3).1.db.pendingTabs _ = _
    unfold matStep
    rw [if_neg (by simp [StateDb.isEventApplied, hna3])]
    show (((applyEvent (materializeEvents w [e] dev).1 e3.event dev).db.markEventApplied
        e3.id e3.device e3.timestamp)).pendingTabs _ = _
    rw [markEventApplied_pendingTabs, he3]
    simp [applyEvent, StateDb.removePendingTab, upd]
  · simp [acknowledgeTab, StateDb.removePendingTab, upd]

/-- The `TabSent` envelope of the C10 witness. -/
def tabWitnessEnv : EventEnvelope :=
  { id := "e-1", timestamp := 0, device := "devA", clock := VectorClock.new,
    event := .tabSent "devB" "https://x" none }

/-- A `TabReceived` envelope that (wrongly) references the `TabSent`
envelope id instead of the pending-tab row id. -/
def tabAckForeign : EventEnvelope :=
  { id := "e-2", timestamp := 1, device := "devB", clock := VectorClock.new,
    event := .tabReceived "e-1" }

/-- The `TabReceived` envelope `acknowledge_tab` would write on the
receiving device: it carries the locally generated row id. -/
def tabAckLocal : EventEnvelope :=
  { id := "e-3", timestamp := 2, device := "devB", clock := VectorClock.new,
    event := .tabReceived (genUuid 0) }

/-- Witness for C10 at a concrete world: the inserted row survives a
`TabReceived` carrying the envelope id and is deleted by one carrying the
generated row id. -/
theorem tabSent_row_survives_foreign_ack_witness :
    (materializeEvents emptyWorld [tabWitnessEnv] "devB").1.db.pendingTabs (genUuid 0)
      = some { url := "https://x", title := none, sentBy := "devB", sentAt := 0 }
    ∧ (materializeEvents (materializeEvents emptyWorld [tabWitnessEnv] "devB").1
        [tabAckForeign] "devB").1.db.pendingTabs (genUuid 0)
      = some { url := "https://x", title := none, sentBy := "devB", sentAt := 0 }
    ∧ (materializeEvents (materializeEvents emptyWorld [tabWitnessEnv] "devB").1
        [tabAckLocal] "devB").1.db.pendingTabs (genUuid 0)
      = none := by
  have h := tabSent_row_survives_foreign_ack emptyWorld tabWitnessEnv "devB" "https://x" none
    rfl rfl (by decide)
  exact ⟨h.1, h.2.1 tabAckForeign rfl, h.2.2.1 tabAckLocal rfl (by decide)⟩

/-- Rust `Container` from `src/profile/containers.rs` as queued by the write
queue. -/
structure Container where
  userContextId : Nat
  name : String
  icon : String
  color : String
  isPublic : Bool
deriving DecidableEq

/-- Rust `Handler` from `src/profile/handlers.rs` as queued by the write
queue. -/
structure Handler where
  protocol : String
  handler : String
deriving DecidableEq

/-- Rust `PendingWrite` from `src/profile/write_queue.rs` (the prefs map is an
association list). -/
inductive PendingWrite where
| containers (cs : List Container)
| handlers (hs : List Handler)
| prefs (ps : List (String × PrefValue))
deriving DecidableEq

/-- Rust `WriteQueue` from `src/profile/write_queue.rs`. -/
structure WriteQueue where
  profilePath : String
  pending : List PendingWrite
deriving DecidableEq

/-- The outcome the filesystem gives each profile writer
(`write_containers` / `write_handlers` / `write_user_js`): `none` is
success, `some msg` the failure it surfaces. -/
structure ProfileIo where
  containersResult : Option String
  handlersResult : Option String
  prefsResult : Option String

/-- The writer outcome for one queued item. -/
def writeResult (io : ProfileIo) : PendingWrite → Option String
  | .containers _ => io.containersResult
  | .handlers _ => io.handlersResult
  | .prefs _ => io.prefsResult

/-- The artifact name `flush` records for one queued item. -/
def writeName : PendingWrite → String
  | .containers _ => "containers.json"
  | .handlers _ => "handlers.json"
  | .prefs _ => "user.js"

/-- The `for write in self.pending.drain(..)` loop body of
`WriteQueue::flush`: apply writers in order, pushing each artifact name,
returning early on the first failure. -/
def flushGo (io : ProfileIo) (applied : List String) :
    List PendingWrite → Except String (List String)
  | [] => .ok applied
  | wi :: rest =>
    match writeResult io wi with
    | some e => .error e
    | none => flushGo io (applied ++ [writeName wi]) rest

/-- Rust `WriteQueue::flush`. `Vec::drain(..)` removes the drained range from
the vector even when the loop is abandoned early through `?` (the `Drain`
guard removes the remaining items when dropped), so the resulting queue is
empty on success AND on failure. -/
def flush (io : ProfileIo) (q : WriteQueue) : Except String (List String) × WriteQueue :=
  (flushGo io [] q.pending, { q with pending := [] })

/-- A queue holding a containers write then a handlers write. -/
def qCH : WriteQueue :=
  { profilePath := "/profile",
    pending := [.containers [], .handlers [{ protocol := "mailto", handler := "hnd" }]] }

/-- A filesystem on which the containers write fails and the others
succeed. -/
def ioFailContainers : ProfileIo :=
  { containersResult := some "disk full", handlersResult := none, prefsResult := none }

/-- A filesystem on which every profile write succeeds. -/
def ioAllOk : ProfileIo :=
  { containersResult := none, handlersResult := none, prefsResult := none }

/-- C4 (counterexample). Flushing a queue of a containers write and a
handlers write on a filesystem where the containers write fails surfaces
the error, but the resulting queue is empty: the handlers item — which was
never applied and would have succeeded — does not remain in the queue,
contrary to the claim. -/
theorem flush_failure_empties_queue :
    (flush ioFailContainers qCH).1 = Except.error "disk full"
    ∧ (flush ioFailContainers qCH).2.pending = []
    ∧ writeResult ioFailContainers
        (PendingWrite.handlers [{ protocol := "mailto", handler := "hnd" }]) = none
    ∧ qCH.pending ≠ [] := by
  refine ⟨rfl, rfl, rfl, by decide⟩

/-- An `ok` result of the flush loop is the accumulator followed by the
artifact names of the remaining items. -/
theorem flushGo_ok (io : ProfileIo) (l : List PendingWrite) :
    ∀ (applied ns : List String), flushGo io applied l = Except.ok ns →
      ns = applied ++ l.map writeName := by
  induction l with
  | nil =>
      intro applied ns h
      simp only [flushGo] at h
      injection h with h
      simp [h.symm]
  | cons wi rest ih =>
      intro applied ns h
      simp only [flushGo] at h
      cases hw : writeResult io wi with
      | some e => rw [hw] at h; exact absurd h (by simp)
      | none =>
          rw [hw] at h
          have := ih (applied ++ [writeName wi]) ns h
          simp [this]

/-- When every writer succeeds, the flush loop returns all names. -/
theorem flushGo_all_ok (io : ProfileIo) (l : List PendingWrite) :
    ∀ (applied : List String), (∀ wi ∈ l, writeResult io wi = none) →
      flushGo io applied l = Except.ok (applied ++ l.map writeName) := by
  induction l with
  | nil => intro applied _; simp [flushGo]
  | cons wi rest ih =>
      intro applied hall
      have hw : writeResult io wi = none := hall wi (by simp)
      simp only [flushGo, hw]
      have := ih (applied ++ [writeName wi]) (fun x hx => hall x (by simp [hx]))
      simpa using this

/-- C4 (amended). `flush` applies the queued writes in order until the
first failure; it always empties the queue — on failure the unapplied
items are removed as well, and the error is surfaced; on full success it
returns the artifact names of all queued items in order. -/
theorem flush_spec (io : ProfileIo) (q : WriteQueue) :
    (flush io q).2.pending = []
    ∧ (∀ ns, (flush io q).1 = Except.ok ns → ns = q.pending.map writeName)
    ∧ ((∀ wi ∈ q.pending, writeResult io wi = none) →
        (flush io q).1 = Except.ok (q.pending.map writeName)) := by
  refine ⟨rfl, ?_, ?_⟩
  · intro ns h
    simpa using flushGo_ok io q.pending [] ns h
  · intro hall
    simpa using flushGo_all_ok io q.pending [] hall

/-- Witness for C4's amended theorem on a fully writable filesystem. -/
theorem flush_spec_witness :
    (flush ioAllOk qCH).2.pending = []
    ∧ (flush ioAllOk qCH).1 = Except.ok (qCH.pending.map writeName) :=
  ⟨(flush_spec ioAllOk qCH).1, (flush_spec ioAllOk qCH).2.2 (by decide)⟩

/-- Rust `PairingRequest` from `src/daemon/pairing.rs`. -/
structure PairingRequest where
  deviceId : String
  deviceName : String
  publicKey : String
deriving DecidableEq

/-- Rust `PairingResult` from `src/daemon/pairing.rs`. -/
inductive PairingResult where
| accepted (deviceId deviceName publicKey : String)
| rejected
| expired
| invalidCode
deriving DecidableEq

/-- Rust `PendingSession` from `src/daemon/pairing.rs` (`Instant` is a `Nat`
time point). -/
structure PendingSession where
  code : String
  createdAt : Nat
deriving DecidableEq

/-- The fields of `PairingState` the `JoinSession` arm reads and writes;
the held joiner reply channel is modelled by a flag. -/
structure PairingStateM where
  currentSession : Option PendingSession
  pendingJoiner : Bool
  pendingRequest : Option PairingRequest
deriving DecidableEq

/-- Rust `CODE_EXPIRY`: 300 seconds. -/
def codeExpiry : Nat := 300

/-- The validity check of the `JoinSession` arm:
`s.code == code && s.created_at.elapsed() <= CODE_EXPIRY`
(`unwrap_or(false)` for a missing session; `elapsed` is `now - created_at`,
saturating like `Instant::elapsed`). -/
def sessionValid (st : PairingStateM) (now : Nat) (code : String) : Bool :=
  match st.currentSession with
  | some s => decide (s.code = code) && decide (now - s.createdAt ≤ codeExpiry)
  | none => false

/-- The `JoinSession` arm of `PairingState::handle_command`: on a valid
join, hold the joiner and its request; otherwise reply `InvalidCode` when
no session exists and `Expired` when one does, leaving the state
untouched. The reply sent on `response_tx` is the second component
(`none` when the reply channel is held for later). -/
def handleJoinSession (st : PairingStateM) (now : Nat) (code : String) (req : PairingRequest) :
    PairingStateM × Option PairingResult :=
  if sessionValid st now code then
    ({ st with pendingJoiner := true, pendingRequest := some req }, none)
  else
    (st, some (if st.currentSession.isNone then PairingResult.invalidCode else PairingResult.expired))

/-- The state of a C5 counterexample: an active session with code
`111111` created at time 0. -/
def sessionAwaiting : PairingStateM :=
  { currentSession := some { code := "111111", createdAt := 0 },
    pendingJoiner := false, pendingRequest := none }

/-- The joiner request of the C5 counterexample. -/
def joinReq : PairingRequest :=
  { deviceId := "dev2", deviceName := "name2", publicKey := "pk2" }

/-- C5 (counterexample). With an unexpired `AwaitingJoiner("111111", 0)`
session, a `JoinSession` carrying the wrong code `222222` at time 10 is
answered with `Expired`, not `InvalidCode` as the claim states — the
`InvalidCode` branch fires only when no session exists at all. The state
is left unchanged. -/
theorem joinSession_mismatch_replies_expired :
    handleJoinSession sessionAwaiting 10 "222222" joinReq
      = (sessionAwaiting, some PairingResult.expired)
    ∧ PairingResult.expired ≠ PairingResult.invalidCode := by
  refine ⟨rfl, by decide⟩

/-- C5 (amended). For every pairing state in `AwaitingJoiner(code, t)`
with the session not yet expired, handling `JoinSession` with a mismatched
code replies `Expired` to the joiner (the reply used for any invalid
attempt while a session exists) and leaves the machine in `AwaitingJoiner`
with the same code and creation time. -/
theorem joinSession_mismatch_spec (st : PairingStateM) (s : PendingSession) (now : Nat)
    (code : String) (req : PairingRequest)
    (hs : st.currentSession = some s) (hcode : code ≠ s.code)
    (hfresh : now - s.createdAt ≤ codeExpiry) :
    handleJoinSession st now code req = (st, some PairingResult.expired) := by
  simp [handleJoinSession, sessionValid, hs, Ne.symm hcode]

/-- Witness for C5's amended theorem at the counterexample input. -/
theorem joinSession_mismatch_spec_witness :
    handleJoinSession sessionAwaiting 10 "222222" joinReq
      = (sessionAwaiting, some PairingResult.expired) :=
  joinSession_mismatch_spec sessionAwaiting { code := "111111", createdAt := 0 } 10 "222222"
    joinReq rfl (by decide) (by decide)

end Wolfpack
